import Mathlib

/-!
Verification of the shopify-inventory-report engine.

Shallow embedding of the repository's core functions:
- `normaliseSku` (src/api/sell-through.js, lines 50-56)
- `parseCsv` (src/api/sell-through.js, lines 182-221)
- the sheet row parser of `fetchSheetBySku` (src/api/sell-through.js, lines 268-308)
- `mergeSalesAndSheet` (src/api/sell-through.js, lines 314-378)
- `computeMetrics` / `calculateMetrics` per-day pass
  (src/api/inventory-report.js lines 292-331, src/unnamed/part_004 lines 198-223)
- `reconstructDailyInventory` (src/unnamed/part_004, lines 175-195)
- `reconstructDailyLevels` (src/unnamed/part_002 lines 215-227 and
  src/unnamed/part_003 lines 169-182)
- the paged fetch loops `fetchVariants` (src/unnamed/part_004, lines 88-122)
  and `fetchAllVariants` (src/api/inventory-report.js, lines 93-137)

JavaScript numbers are modelled as `Int` where the code only adds and
compares integers, and as `ℚ` where the code divides.  `null` becomes
`Option.none`.  Strings are modelled by `String` / `List Char`.
-/

/-! ## JavaScript string primitives -/

/-- Whitespace as recognised by JavaScript `trim()` and `\s`, restricted to
the ASCII whitespace characters (the repository's SKU and CSV data is ASCII). -/
def isJsWs (c : Char) : Bool :=
  c = ' ' || c = '\t' || c = '\n' || c = '\r' || c = '\x0b' || c = '\x0c'

/-- JavaScript `String.prototype.trim()`: drop leading and trailing whitespace. -/
def trimChars (l : List Char) : List Char :=
  ((l.dropWhile isJsWs).reverse.dropWhile isJsWs).reverse

/-- JavaScript `String.prototype.includes(pat)`: substring test. -/
def containsSub (pat : List Char) : List Char → Bool
  | [] => pat.isPrefixOf []
  | c :: rest => pat.isPrefixOf (c :: rest) || containsSub pat rest

/-- JavaScript `str.match(/pat=([^&>]+)/)?.[1]`: scan left to right for the
first position where the literal `pat` is followed by at least one character
other than `&` and `>`; return the maximal such run of characters. -/
def extractAfterToken (pat : List Char) : List Char → Option (List Char)
  | [] => none
  | c :: rest =>
    if pat.isPrefixOf (c :: rest) then
      let tok := ((c :: rest).drop pat.length).takeWhile (fun ch => ch != '&' && ch != '>')
      if tok.isEmpty then extractAfterToken pat rest else some tok
    else extractAfterToken pat rest

/-- JavaScript `String.prototype.replace("%", "")` with a string pattern:
remove the first occurrence of `%` only. -/
def replaceFirstPercent : List Char → List Char
  | [] => []
  | '%' :: t => t
  | c :: t => c :: replaceFirstPercent t

/-! ## JavaScript `Number()` on decimal literals -/

/-- Value of a digit run, most significant first. -/
def digitsVal (ds : List Char) : Nat :=
  ds.foldl (fun a c => 10 * a + (c.toNat - 48)) 0

/-- Parse an unsigned decimal literal `digits [. digits]` consuming the whole
input; at least one digit must be present on one side of the point. -/
def parseUnsigned (l : List Char) : Option ℚ :=
  let ip := l.takeWhile Char.isDigit
  let r1 := l.dropWhile Char.isDigit
  match r1 with
  | '.' :: r2 =>
      let fp := r2.takeWhile Char.isDigit
      let r3 := r2.dropWhile Char.isDigit
      if r3 = [] ∧ (ip ≠ [] ∨ fp ≠ []) then
        some ((digitsVal ip : ℚ) + (digitsVal fp : ℚ) / ((10 : ℚ) ^ fp.length))
      else none
  | [] => if ip ≠ [] then some ((digitsVal ip : ℚ)) else none
  | _ => none

/-- JavaScript `Number(string)` restricted to decimal literals: trims
whitespace, maps the empty string to `0`, accepts an optional sign, and
returns `none` (the model of `NaN`) on anything unparseable.  Exponent, hex
and `Infinity` forms do not occur in the sheet data and are not modelled. -/
def jsNumber (s : String) : Option ℚ :=
  match trimChars s.data with
  | [] => some 0
  | '-' :: r => (parseUnsigned r).map (fun q => -q)
  | '+' :: r => parseUnsigned r
  | l => parseUnsigned l

/-! ## SKU normaliser (src/api/sell-through.js, lines 50-56) -/

/-- One step of `replace(/\s*-#+\s*$/, "")` working on the reversed character
list: drop trailing whitespace, then require at least one `#`, then require a
`-`, then drop the whitespace immediately before the `-`.  Returns `none`
when the anchored pattern does not match (leftmost-match semantics of the
JavaScript regex coincide with this greedy suffix decomposition because `#`
and `-` are not whitespace). -/
def stripSuffixRev (r : List Char) : Option (List Char) :=
  let r1 := r.dropWhile isJsWs
  let r2 := r1.dropWhile (fun c => c = '#')
  if r2.length < r1.length ∧ r2.head? = some '-' then
    some (r2.tail.dropWhile isJsWs)
  else none

/-- `String(sku).replace(/\s*-#+\s*$/, "")`. -/
def stripVariantSuffix (l : List Char) : List Char :=
  match stripSuffixRev l.reverse with
  | some r => r.reverse
  | none => l

/-- `normaliseSku` from src/api/sell-through.js: `null` for falsy (empty)
input, otherwise trim then strip one trailing variant-count suffix. -/
def normaliseSku (s : String) : Option String :=
  if s = "" then none
  else some (String.mk (stripVariantSuffix (trimChars s.data)))

/-- Applying `normaliseSku` to a possibly-null value: JavaScript
`normaliseSku(null)` returns `null` through the same falsy test. -/
def normaliseSkuMap : Option String → Option String
  | none => none
  | some s => normaliseSku s

/-! ## Per-day metrics pass
(src/api/inventory-report.js `computeMetrics` lines 292-331 and
src/unnamed/part_004 `calculateMetrics` lines 198-223) -/

/-- Per-SKU metrics accumulated by the per-day pass. -/
structure SkuMetrics where
  days_in_stock : Int
  stockout_days : Int
  sold_while_in_stock : Int
  total_sold : Int
deriving Repr, DecidableEq

/-- `map[key] ?? 0` / `map[key] || 0`: association-list lookup defaulting to
zero (for integer values the two JavaScript idioms agree). -/
def lookupOr0 (m : List (String × Int)) (k : String) : Int :=
  (List.lookup k m).getD 0

/-- The loop body shared by `computeMetrics` and `calculateMetrics`:
`totalSold += sold`; if the day's availability is `> 0` count an in-stock day
and add the day's sales to `soldWhileInStock`, otherwise count a stockout day. -/
def metricsStep (inv sales : List (String × Int)) (m : SkuMetrics) (day : String) : SkuMetrics :=
  let qtyAvail := lookupOr0 inv day
  let sold := lookupOr0 sales day
  if qtyAvail > 0 then
    { m with total_sold := m.total_sold + sold,
             days_in_stock := m.days_in_stock + 1,
             sold_while_in_stock := m.sold_while_in_stock + sold }
  else
    { m with total_sold := m.total_sold + sold,
             stockout_days := m.stockout_days + 1 }

/-- The per-day pass for one SKU: fold `metricsStep` over the window's day
sequence starting from all-zero counters (src/unnamed/part_004 lines 198-223;
the inner loop of `computeMetrics` is identical with the sales index keyed by
`date|sku`). -/
def calculateMetrics (days : List String) (inv sales : List (String × Int)) : SkuMetrics :=
  days.foldl (metricsStep inv sales) ⟨0, 0, 0, 0⟩

/-! ## Backward reconstruction (src/unnamed/part_004, lines 175-195) -/

/-- Backward walk of `reconstructDailyInventory`: the result pairs each day
with the running total at the moment that day is visited (last day first),
and the returned running total has every visited day's sales added back. -/
def reconstructAux (sales : List (String × Int)) : List String → Int → List (String × Int) × Int
  | [], running => ([], running)
  | d :: rest, running =>
      let (tail, r2) := reconstructAux sales rest running
      ((d, r2) :: tail, r2 + lookupOr0 sales d)

/-- `reconstructDailyInventory(startDay, endDay, finalQty, salesForSku)` with
the enumerated day list passed explicitly: every day is assigned the running
total, which afterwards grows by that day's sales while walking backward. -/
def reconstructDailyInventory (days : List String) (finalQty : Int)
    (salesForSku : List (String × Int)) : List (String × Int) :=
  (reconstructAux salesForSku days finalQty).1

/-! ## Forward accumulation
(src/unnamed/part_002 lines 215-227 and src/unnamed/part_003 lines 169-182) -/

/-- Add `v` to the first entry with key `k`, leave the map unchanged when the
key is absent (JavaScript `daily[date] += delta` on an existing property). -/
def updAddAt (m : List (String × Int)) (k : String) (v : Int) : List (String × Int) :=
  match m with
  | [] => []
  | (k2, x) :: t => if k2 = k then (k2, x + v) :: t else (k2, x) :: updAddAt t k v

/-- `reconstructDailyLevels` of src/unnamed/part_002 (lines 215-227): every
day starts at zero, then each adjustment runs `if (!daily[adj.date]) continue;`
— the guard skips the adjustment when the slot is absent OR currently `0`
(zero is falsy) — else adds its delta. -/
def reconstructDailyLevels_p2 (days : List String)
    (adjustments : List (String × Int)) : List (String × Int) :=
  adjustments.foldl
    (fun daily adj =>
      match List.lookup adj.1 daily with
      | none => daily
      | some x => if x = 0 then daily else updAddAt daily adj.1 adj.2)
    (days.map (fun d => (d, (0 : Int))))

/-- `reconstructDailyLevels` of src/unnamed/part_003 (lines 169-182): every
day starts at zero, and each adjustment whose date is a key of the map
(`map[a.date] !== undefined`) adds its delta to that day's slot only. -/
def reconstructDailyLevels_p3 (days : List String)
    (adjustments : List (String × Int)) : List (String × Int) :=
  adjustments.foldl
    (fun m a =>
      match List.lookup a.1 m with
      | none => m
      | some _ => updAddAt m a.1 a.2)
    (days.map (fun d => (d, (0 : Int))))

/-! ## Paged fetch loop, REST variant (src/unnamed/part_004, lines 88-122) -/

/-- Raw product variant as delivered by the REST products endpoint; a missing
`sku` is the empty string, a missing `inventory_item_id` is `0` (the falsy
values of the JavaScript truthiness tests). -/
structure RestVariant where
  id : Int
  sku : String
  inventory_item_id : Int
deriving Repr, DecidableEq

/-- Raw product: a list of variants (only `variants` is read by the loop). -/
structure RestProduct where
  variants : List RestVariant
deriving Repr, DecidableEq

/-- One REST page: the `products` array of the response body, plus the `Link`
header text read as `json.headers?.link || ""`. -/
structure RestPage where
  products : List RestProduct
  link : String
deriving Repr, DecidableEq

/-- The record pushed by `fetchVariants` for each kept variant. -/
structure PickedVariant where
  sku : String
  variantId : Int
  inventoryItemId : Int
deriving Repr, DecidableEq

/-- `if (v.sku && v.inventory_item_id)`: both fields truthy. -/
def keepRestVariant (v : RestVariant) : Bool :=
  v.sku ≠ "" && v.inventory_item_id ≠ 0

/-- The records one page contributes, in arrival order. -/
def collectRestVariants (p : RestPage) : List PickedVariant :=
  (p.products.map (fun pr =>
    (pr.variants.filter keepRestVariant).map
      (fun v => ⟨v.sku, v.id, v.inventory_item_id⟩))).flatten

/-- `link.includes('rel="next"')`. -/
def hasRelNext (link : String) : Bool :=
  containsSub ("rel=".data ++ ['"'] ++ "next".data ++ ['"']) link.data

/-- `link.match(/page_info=([^&>]+)/)?.[1]`. -/
def extractPageInfo (link : String) : Option String :=
  (extractAfterToken "page_info=".data link.data).map String.mk

/-- The continuation decision at the bottom of the loop: stop unless the link
carries a `rel="next"` marker AND a `page_info=` token can be extracted. -/
def nextCursor (link : String) : Option String :=
  if hasRelNext link then extractPageInfo link else none

/-- `fetchVariants` (src/unnamed/part_004, lines 88-122).  The upstream is the
function `getPage` from the optional `page_info` cursor to the response; the
`fuel` bound is an artifact of the embedding (the JavaScript `while (true)`
loop runs until a page without a continuation token arrives). -/
def fetchVariants (getPage : Option String → RestPage) : Nat → Option String → List PickedVariant
  | 0, _ => []
  | fuel + 1, cursor =>
      let page := getPage cursor
      let vs := collectRestVariants page
      match nextCursor page.link with
      | none => vs
      | some c => vs ++ fetchVariants getPage fuel (some c)

/-- Modelled from the spec: the sequence of pages the fetch loop visits —
the page at the current cursor, followed by the pages visited from the
extracted continuation token while one is present, stopping when absent. -/
def restPagesVisited (getPage : Option String → RestPage) : Nat → Option String → List RestPage
  | 0, _ => []
  | fuel + 1, cursor =>
      let page := getPage cursor
      page ::
        (match nextCursor page.link with
         | none => []
         | some c => restPagesVisited getPage fuel (some c))

/-! ## Paged fetch loop, GraphQL variant (src/api/inventory-report.js, lines 93-137) -/

/-- GraphQL product variant node: `inventoryItem` is `none` when absent and
carries the (possibly empty) id string otherwise. -/
structure GqlVariant where
  id : String
  sku : String
  inventoryItem : Option String
deriving Repr, DecidableEq

/-- A product edge: its pagination cursor and the product's variant nodes
(the `variants.edges[].node` wrapper is flattened to the node list). -/
structure GqlEdge where
  cursor : String
  variants : List GqlVariant
deriving Repr, DecidableEq

/-- One GraphQL page: `data.products.edges` and `pageInfo.hasNextPage`. -/
structure GqlPage where
  edges : List GqlEdge
  hasNextPage : Bool
deriving Repr, DecidableEq

/-- `if (!v.sku) continue; if (!v.inventoryItem?.id) continue;`. -/
def keepGqlVariant (v : GqlVariant) : Bool :=
  v.sku ≠ "" &&
    (match v.inventoryItem with
     | some i => i ≠ ""
     | none => false)

/-- The variants one GraphQL page contributes, in arrival order. -/
def collectGqlVariants (p : GqlPage) : List GqlVariant :=
  (p.edges.map (fun e => e.variants.filter keepGqlVariant)).flatten

/-- `fetchAllVariants` (src/api/inventory-report.js, lines 93-137): collect
the page, stop when `pageInfo.hasNextPage` is false, otherwise continue from
the last edge's cursor.  `edges[edges.length - 1].cursor` on an empty edge
list throws in JavaScript; the model returns `none` for that crash. -/
def fetchAllVariants (getPage : Option String → GqlPage) :
    Nat → Option String → Option (List GqlVariant)
  | 0, _ => some []
  | fuel + 1, cursor =>
      let page := getPage cursor
      let vs := collectGqlVariants page
      if page.hasNextPage then
        match page.edges.getLast? with
        | some e => (fetchAllVariants getPage fuel (some e.cursor)).map (fun r => vs ++ r)
        | none => none
      else some vs

/-- Modelled from the spec: the pages the GraphQL loop visits — the current
page, then the pages reached from the last edge's cursor while
`hasNextPage` is set, stopping when it is not. -/
def gqlPagesVisited (getPage : Option String → GqlPage) : Nat → Option String → List GqlPage
  | 0, _ => []
  | fuel + 1, cursor =>
      let page := getPage cursor
      page ::
        (if page.hasNextPage then
          match page.edges.getLast? with
          | some e => gqlPagesVisited getPage fuel (some e.cursor)
          | none => []
         else [])

/-! ## CSV parser (src/api/sell-through.js, `parseCsv`, lines 182-221) -/

/-- Close the current row at an unquoted line break or at end of input:
`if (field !== "" || row.length > 0) { row.push(field); rows.push(row); }`.
The field is accumulated reversed and the row/rows lists most-recent-first. -/
def csvCloseRow (field : List Char) (row : List (List Char))
    (rows : List (List (List Char))) : List (List (List Char)) :=
  if field ≠ [] ∨ row ≠ [] then (field.reverse :: row).reverse :: rows else rows

/-- The character loop of `parseCsv`: `inQ` is `inQuotes`, `field` the current
field (reversed), `row` the fields of the current row (most recent first),
`rows` the completed rows (most recent first). -/
def parseCsvAux : Bool → List Char → List (List Char) → List (List (List Char)) →
    List Char → List (List (List Char))
  | _, field, row, rows, [] => (csvCloseRow field row rows).reverse
  | true, field, row, rows, '"' :: '"' :: rest2 =>
      parseCsvAux true ('"' :: field) row rows rest2
  | inQ, field, row, rows, '"' :: rest =>
      parseCsvAux (!inQ) field row rows rest
  | inQ, field, row, rows, ',' :: rest =>
      if inQ then parseCsvAux inQ (',' :: field) row rows rest
      else parseCsvAux inQ [] (field.reverse :: row) rows rest
  | true, field, row, rows, '\r' :: rest =>
      parseCsvAux true ('\r' :: field) row rows rest
  | false, field, row, rows, '\r' :: '\n' :: rest2 =>
      parseCsvAux false [] [] (csvCloseRow field row rows) rest2
  | false, field, row, rows, '\r' :: rest =>
      parseCsvAux false [] [] (csvCloseRow field row rows) rest
  | inQ, field, row, rows, '\n' :: rest =>
      if inQ then parseCsvAux inQ ('\n' :: field) row rows rest
      else parseCsvAux inQ [] [] (csvCloseRow field row rows) rest
  | inQ, field, row, rows, c :: rest => parseCsvAux inQ (c :: field) row rows rest

/-- `parseCsv(text)`: rows of fields, with double-quote field quoting,
doubled-quote escaping, embedded commas/newlines inside quotes, and tolerant
line-ending handling. -/
def parseCsv (text : String) : List (List String) :=
  (parseCsvAux false [] [] [] text.data).map (fun r => r.map String.mk)

/-! ## Sheet row parsing (src/api/sell-through.js, `fetchSheetBySku`, lines 268-308) -/

/-- A JavaScript numeric-or-null field value: `null`, `NaN`, or a number. -/
inductive JsNumVal where
  | null
  | nan
  | num (q : ℚ)
deriving Repr, DecidableEq

/-- Column indices produced by `header.indexOf(...)`: `-1` when absent. -/
structure SheetIdx where
  productTitle : Int
  variantTitle : Int
  sku : Int
  abc : Int
  sellThroughRate : Int
  inventoryUnitsSold : Int
  startingUnits : Int
  endingUnits : Int
  daysInStock : Int
  daysOutOfStock : Int
  percentInventorySold : Int
deriving Repr, DecidableEq

/-- `row[i]` for a signed index: `undefined` (none) when negative or past the
end of the row. -/
def cellAt (row : List String) (i : Int) : Option String :=
  if 0 ≤ i then row.get? i.toNat else none

/-- `Number(row[i] || 0)`: a missing or empty cell counts as `0`; any other
cell goes through `Number`, giving `NaN` when unparseable. -/
def numCellOr0 (cell : Option String) : JsNumVal :=
  match cell with
  | none => JsNumVal.num 0
  | some s =>
      if s = "" then JsNumVal.num 0
      else
        match jsNumber s with
        | some q => JsNumVal.num q
        | none => JsNumVal.nan

/-- `Number(String(row[i]).replace("%", "")) || null`: strip the first `%`,
parse, then coerce every falsy result — both `NaN` and `0` — to `null`.
A missing cell stringifies to `"undefined"`. -/
def percentCell (cell : Option String) : JsNumVal :=
  let s := match cell with
           | none => "undefined"
           | some s => s
  match jsNumber (String.mk (replaceFirstPercent s.data)) with
  | none => JsNumVal.null
  | some q => if q = 0 then JsNumVal.null else JsNumVal.num q

/-- `row[i] || ""` guarded by `idx >= 0`. -/
def textCell (row : List String) (i : Int) : String :=
  if 0 ≤ i then (cellAt row i).getD "" else ""

/-- The per-SKU record built for a data row (the object stored in `bySku`). -/
structure SheetRow where
  sku_norm : String
  sku_raw : String
  product_title : String
  variant_title : String
  abc_grade : String
  days_in_stock_24m : JsNumVal
  days_out_of_stock_24m : JsNumVal
  inventory_units_sold_csv : JsNumVal
  sell_through_rate_csv : JsNumVal
  percent_inventory_sold_csv : JsNumVal
deriving Repr, DecidableEq

/-- The body of the row loop of `fetchSheetBySku` (lines 268-308): skip rows
with a falsy or unnormalisable SKU, otherwise build the keyed record. -/
def sheetRecordOfRow (idx : SheetIdx) (row : List String) : Option (String × SheetRow) :=
  let rawSku := match cellAt row idx.sku with
                | none => ""
                | some s => if s = "" then "" else String.mk (trimChars s.data)
  if rawSku = "" then none
  else
    match normaliseSku rawSku with
    | none => none
    | some skuNorm =>
        some (skuNorm,
          { sku_norm := skuNorm
            sku_raw := rawSku
            product_title := textCell row idx.productTitle
            variant_title := textCell row idx.variantTitle
            abc_grade := textCell row idx.abc
            days_in_stock_24m :=
              if 0 ≤ idx.daysInStock then numCellOr0 (cellAt row idx.daysInStock)
              else JsNumVal.num 0
            days_out_of_stock_24m :=
              if 0 ≤ idx.daysOutOfStock then numCellOr0 (cellAt row idx.daysOutOfStock)
              else JsNumVal.num 0
            inventory_units_sold_csv :=
              if 0 ≤ idx.inventoryUnitsSold then numCellOr0 (cellAt row idx.inventoryUnitsSold)
              else JsNumVal.null
            sell_through_rate_csv :=
              if 0 ≤ idx.sellThroughRate then percentCell (cellAt row idx.sellThroughRate)
              else JsNumVal.null
            percent_inventory_sold_csv :=
              if 0 ≤ idx.percentInventorySold then percentCell (cellAt row idx.percentInventorySold)
              else JsNumVal.null })

/-! ## Merge (src/api/sell-through.js, `mergeSalesAndSheet`, lines 314-378) -/

/-- `a || b` on strings: `b` when `a` is empty. -/
def jsOrStr (a b : String) : String :=
  if a = "" then b else a

/-- An entry of `salesStats` as built by `fetchSalesBySku`. -/
structure SalesStat where
  sku : String
  any_raw_sku : String
  total_sold_24m : ℚ
deriving Repr, DecidableEq

/-- An entry of `sheetStats`: the sheet's numeric cells are modelled as exact
rationals here (the merge claims quantify over arbitrary numeric inputs). -/
structure SheetStat where
  sku_raw : String
  product_title : String
  variant_title : String
  abc_grade : String
  days_in_stock_24m : ℚ
  days_out_of_stock_24m : ℚ
  inventory_units_sold_csv : Option ℚ
  sell_through_rate_csv : Option ℚ
  percent_inventory_sold_csv : Option ℚ
deriving Repr, DecidableEq

/-- The output record of the merge loop. -/
structure MergedItem where
  sku_norm : String
  sku_raw : String
  product_title : String
  variant_title : String
  abc_grade : String
  total_sold_24m : ℚ
  days_in_stock_24m : ℚ
  days_out_of_stock_24m : ℚ
  in_stock_rate_24m : Option ℚ
  velocity_in_stock_24m : Option ℚ
  inventory_units_sold_csv : Option ℚ
  sell_through_rate_csv : Option ℚ
  percent_inventory_sold_csv : Option ℚ
deriving Repr, DecidableEq

/-- The body of the merge loop for one SKU of the key union: synthesise the
missing side with zeroed/null fields, then compute the derived ratios behind
their positivity guards.  (`totalDays || 0` only rewrites `NaN`, which the
rational model cannot produce, so it is the identity here.) -/
def mergeOne (sku : String) (salesOpt : Option SalesStat) (sheetOpt : Option SheetStat) :
    MergedItem :=
  let sales := salesOpt.getD { sku := sku, any_raw_sku := sku, total_sold_24m := 0 }
  let sheet := sheetOpt.getD
    { sku_raw := jsOrStr sales.any_raw_sku sku
      product_title := ""
      variant_title := ""
      abc_grade := ""
      days_in_stock_24m := 0
      days_out_of_stock_24m := 0
      inventory_units_sold_csv := none
      sell_through_rate_csv := none
      percent_inventory_sold_csv := none }
  let totalDays := sheet.days_in_stock_24m + sheet.days_out_of_stock_24m
  let inStockRate :=
    if totalDays > 0 then some (sheet.days_in_stock_24m / totalDays) else none
  let velocityInStock :=
    if sheet.days_in_stock_24m > 0 then some (sales.total_sold_24m / sheet.days_in_stock_24m)
    else none
  { sku_norm := sku
    sku_raw := jsOrStr sheet.sku_raw (jsOrStr sales.any_raw_sku sku)
    product_title := sheet.product_title
    variant_title := sheet.variant_title
    abc_grade := sheet.abc_grade
    total_sold_24m := sales.total_sold_24m
    days_in_stock_24m := sheet.days_in_stock_24m
    days_out_of_stock_24m := sheet.days_out_of_stock_24m
    in_stock_rate_24m := inStockRate
    velocity_in_stock_24m := velocityInStock
    inventory_units_sold_csv := sheet.inventory_units_sold_csv
    sell_through_rate_csv := sheet.sell_through_rate_csv
    percent_inventory_sold_csv := sheet.percent_inventory_sold_csv }

/-- `mergeSalesAndSheet(salesStats, sheetStats)`: iterate over the union of
the two key sets (`new Set([...keys, ...keys])` keeps first-occurrence
order, as `eraseDups` does) and build one merged record per SKU. -/
def mergeSalesAndSheet (salesStats : List (String × SalesStat))
    (sheetStats : List (String × SheetStat)) : List (String × MergedItem) :=
  let allSkus := (salesStats.map Prod.fst ++ sheetStats.map Prod.fst).eraseDups
  allSkus.map (fun sku =>
    (sku, mergeOne sku (List.lookup sku salesStats) (List.lookup sku sheetStats)))

/-! ## Concrete demo inputs used by witnesses -/

/-- First demo page: one kept variant, a `Link` header pointing at page two. -/
def restDemoPageOne : RestPage :=
  ⟨[⟨[⟨1, "A-1", 11⟩]⟩],
    String.mk ("<https://shop.example/products.json?page_info=tok2&limit=250>; rel=".data
      ++ ['"'] ++ "next".data ++ ['"'])⟩

/-- Second demo page: one kept variant, no continuation. -/
def restDemoPageTwo : RestPage := ⟨[⟨[⟨2, "B-2", 22⟩]⟩], ""⟩

/-- Two-page demo source for the REST loop. -/
def restDemoSource : Option String → RestPage
  | none => restDemoPageOne
  | some _ => restDemoPageTwo

/-- One-page demo source for the GraphQL loop. -/
def gqlDemoSource : Option String → GqlPage :=
  fun _ => ⟨[⟨"c1", [⟨"v1", "A-1", some "i1"⟩, ⟨"v2", "", some "i2"⟩]⟩], false⟩

/-- A sheet record present only in the external source, reporting zero days
in stock and zero days out of stock. -/
def sheetOnlyDemo : SheetStat :=
  ⟨"CUS-9", "", "", "", 0, 0, none, none, none⟩

/-- Header indices for a sheet whose columns are: SKU, days in stock,
sell-through rate, inventory units sold (all other columns absent). -/
def sheetIdxDemo : SheetIdx :=
  ⟨-1, -1, 0, -1, 2, 3, -1, -1, 1, -1, -1⟩

/-- A sheet record with three days in stock and one day out of stock. -/
def sheetBoundsDemo : SheetStat :=
  ⟨"HAT-9", "", "", "", 3, 1, none, none, none⟩

/-! ## Helper lemmas -/

/-- A list whose head does not satisfy `p` is unchanged by `dropWhile p`. -/
theorem dropWhile_self_of_head (p : Char → Bool) (l : List Char)
    (h : ∀ c, l.head? = some c → p c = false) : l.dropWhile p = l := by
  cases l with
  | nil => rfl
  | cons a t =>
      have ha : p a = false := h a rfl
      simp [List.dropWhile, ha]

/-- The head surviving `dropWhile p` does not satisfy `p`. -/
theorem head_not_of_dropWhile (p : Char → Bool) (l : List Char) :
    ∀ c, (l.dropWhile p).head? = some c → p c = false := by
  induction l with
  | nil => intro c hc; simp at hc
  | cons a t ih =>
      intro c hc
      by_cases ha : p a
      · rw [List.dropWhile_cons_of_pos ha] at hc
        exact ih c hc
      · rw [List.dropWhile_cons_of_neg ha] at hc
        simp at hc
        subst hc
        simpa using ha

/-- A nonempty prefix starts with the head of the longer list. -/
theorem head_not_of_prefix (p : Char → Bool) (w z : List Char) (hw : w <+: z)
    (hz : ∀ c, z.head? = some c → p c = false) :
    ∀ c, w.head? = some c → p c = false := by
  obtain ⟨t, rfl⟩ := hw
  cases w with
  | nil => intro c hc; simp at hc
  | cons a w2 =>
      intro c hc
      simp at hc
      subst hc
      exact hz a (by simp)

/-- Reversal turns suffixes into prefixes. -/
theorem reverse_prefix_of_suffix (l₁ l₂ : List Char) (h : l₁ <:+ l₂) :
    l₁.reverse <+: l₂.reverse := by
  obtain ⟨t, rfl⟩ := h
  exact ⟨t.reverse, by simp⟩

/-- A successful suffix-strip returns a suffix of its (reversed) input. -/
theorem stripSuffixRev_suffix (r r0 : List Char) (h : stripSuffixRev r = some r0) :
    r0 <:+ r := by
  simp only [stripSuffixRev] at h
  split_ifs at h
  injection h with h
  subst h
  have s1 : (((r.dropWhile isJsWs).dropWhile (fun c => c = '#')).tail.dropWhile isJsWs) <:+
      ((r.dropWhile isJsWs).dropWhile (fun c => c = '#')).tail :=
    List.dropWhile_suffix isJsWs
  have s2 : ((r.dropWhile isJsWs).dropWhile (fun c => c = '#')).tail <:+
      ((r.dropWhile isJsWs).dropWhile (fun c => c = '#')) :=
    List.tail_suffix _
  have s3 : ((r.dropWhile isJsWs).dropWhile (fun c => c = '#')) <:+ (r.dropWhile isJsWs) :=
    List.dropWhile_suffix _
  have s4 : (r.dropWhile isJsWs) <:+ r := List.dropWhile_suffix isJsWs
  exact ((s1.trans s2).trans s3).trans s4

/-- A successful suffix-strip ends (in reversed orientation: starts) with a
non-whitespace character. -/
theorem stripSuffixRev_head_not_ws (r r0 : List Char) (h : stripSuffixRev r = some r0) :
    ∀ c, r0.head? = some c → isJsWs c = false := by
  simp only [stripSuffixRev] at h
  split_ifs at h
  injection h with h
  subst h
  exact head_not_of_dropWhile isJsWs _

/-- `trim` leaves no leading whitespace. -/
theorem trimChars_head_not_ws (l : List Char) :
    ∀ c, (trimChars l).head? = some c → isJsWs c = false := by
  unfold trimChars
  have hb : ((l.dropWhile isJsWs).reverse.dropWhile isJsWs).reverse <+: l.dropWhile isJsWs := by
    have := reverse_prefix_of_suffix _ _
      (List.dropWhile_suffix (l := (l.dropWhile isJsWs).reverse) isJsWs)
    rwa [List.reverse_reverse] at this
  exact head_not_of_prefix isJsWs _ _ hb (head_not_of_dropWhile isJsWs l)

/-- `trim` leaves no trailing whitespace. -/
theorem trimChars_reverse_head_not_ws (l : List Char) :
    ∀ c, (trimChars l).reverse.head? = some c → isJsWs c = false := by
  unfold trimChars
  rw [List.reverse_reverse]
  exact head_not_of_dropWhile isJsWs _

/-- A list with no leading and no trailing whitespace is a `trim` fixed point. -/
theorem trimChars_fix (z : List Char)
    (h1 : ∀ c, z.head? = some c → isJsWs c = false)
    (h2 : ∀ c, z.reverse.head? = some c → isJsWs c = false) :
    trimChars z = z := by
  unfold trimChars
  rw [dropWhile_self_of_head isJsWs z h1, dropWhile_self_of_head isJsWs z.reverse h2,
    List.reverse_reverse]

/-- Suffix-stripping preserves the absence of leading whitespace. -/
theorem stripVariantSuffix_head_not_ws (z : List Char)
    (hz : ∀ c, z.head? = some c → isJsWs c = false) :
    ∀ c, (stripVariantSuffix z).head? = some c → isJsWs c = false := by
  unfold stripVariantSuffix
  cases hs : stripSuffixRev z.reverse with
  | none => exact hz
  | some r0 =>
      have hpre : r0.reverse <+: z := by
        have := reverse_prefix_of_suffix _ _ (stripSuffixRev_suffix _ _ hs)
        rwa [List.reverse_reverse] at this
      exact head_not_of_prefix isJsWs _ z hpre hz

/-- Suffix-stripping leaves no trailing whitespace behind. -/
theorem stripVariantSuffix_reverse_head_not_ws (z : List Char)
    (hz : ∀ c, z.reverse.head? = some c → isJsWs c = false) :
    ∀ c, (stripVariantSuffix z).reverse.head? = some c → isJsWs c = false := by
  unfold stripVariantSuffix
  cases hs : stripSuffixRev z.reverse with
  | none => exact hz
  | some r0 =>
      simp only [List.reverse_reverse]
      exact stripSuffixRev_head_not_ws _ _ hs

/-- Invariant of the per-day fold: each step adds one day to exactly one of
the two day counters, never decreases any field, and never lets
`soldWhileInStock` grow faster than `totalSold` (given non-negative sales). -/
theorem metrics_fold_invariant (inv sales : List (String × Int)) :
    ∀ (days : List String), (∀ d ∈ days, 0 ≤ lookupOr0 sales d) → ∀ (m0 : SkuMetrics),
      (days.foldl (metricsStep inv sales) m0).days_in_stock +
          (days.foldl (metricsStep inv sales) m0).stockout_days =
        m0.days_in_stock + m0.stockout_days + days.length ∧
      m0.total_sold - m0.sold_while_in_stock ≤
        (days.foldl (metricsStep inv sales) m0).total_sold -
          (days.foldl (metricsStep inv sales) m0).sold_while_in_stock ∧
      m0.days_in_stock ≤ (days.foldl (metricsStep inv sales) m0).days_in_stock ∧
      m0.stockout_days ≤ (days.foldl (metricsStep inv sales) m0).stockout_days ∧
      m0.sold_while_in_stock ≤ (days.foldl (metricsStep inv sales) m0).sold_while_in_stock ∧
      m0.total_sold ≤ (days.foldl (metricsStep inv sales) m0).total_sold := by
  intro days
  induction days with
  | nil => intro _ m0; simp
  | cons d rest ih =>
      intro h m0
      have hd : 0 ≤ lookupOr0 sales d := h d (by simp)
      have hrest : ∀ x ∈ rest, 0 ≤ lookupOr0 sales x := fun x hx => h x (by simp [hx])
      have hstep := ih hrest (metricsStep inv sales m0 d)
      rw [List.foldl_cons]
      simp only [List.length_cons, Nat.cast_add, Nat.cast_one]
      obtain ⟨e1, e2, e3, e4, e5, e6⟩ := hstep
      unfold metricsStep at *
      by_cases hq : lookupOr0 inv d > 0
      · simp only [hq, if_pos] at *
        refine ⟨by omega, by omega, by omega, by omega, by omega, by omega⟩
      · simp only [hq, if_neg, if_false] at *
        refine ⟨by omega, by omega, by omega, by omega, by omega, by omega⟩

/-! ## Claims -/

/-- C1: for every window day-sequence and every SKU, the per-day pass
(`computeMetrics` / `calculateMetrics`) satisfies
`daysInStock + stockoutDays = number of days`, `soldWhileInStock ≤ totalSold`,
and all four fields are non-negative, given non-negative per-day sold
quantities. -/
theorem metrics_pass_invariants (days : List String) (inv sales : List (String × Int))
    (h : ∀ d ∈ days, 0 ≤ lookupOr0 sales d) :
    (calculateMetrics days inv sales).days_in_stock +
        (calculateMetrics days inv sales).stockout_days = (days.length : Int) ∧
    (calculateMetrics days inv sales).sold_while_in_stock ≤
      (calculateMetrics days inv sales).total_sold ∧
    0 ≤ (calculateMetrics days inv sales).days_in_stock ∧
    0 ≤ (calculateMetrics days inv sales).stockout_days ∧
    0 ≤ (calculateMetrics days inv sales).sold_while_in_stock ∧
    0 ≤ (calculateMetrics days inv sales).total_sold := by
  have hinv := metrics_fold_invariant inv sales days h ⟨0, 0, 0, 0⟩
  unfold calculateMetrics
  obtain ⟨e1, e2, e3, e4, e5, e6⟩ := hinv
  dsimp only at e1 e2 e3 e4 e5 e6
  refine ⟨by omega, by omega, e3, e4, e5, e6⟩

/-- Witness for C1 at a concrete window, availability map and sales map. -/
theorem metrics_pass_invariants_witness :
    (calculateMetrics ["d1", "d2"] [("d1", 3)] [("d1", 2), ("d2", 5)]).days_in_stock +
        (calculateMetrics ["d1", "d2"] [("d1", 3)] [("d1", 2), ("d2", 5)]).stockout_days = 2 ∧
    (calculateMetrics ["d1", "d2"] [("d1", 3)] [("d1", 2), ("d2", 5)]).sold_while_in_stock ≤
      (calculateMetrics ["d1", "d2"] [("d1", 3)] [("d1", 2), ("d2", 5)]).total_sold := by
  have h := metrics_pass_invariants ["d1", "d2"] [("d1", 3)] [("d1", 2), ("d2", 5)] (by decide)
  exact ⟨h.1, h.2.1⟩

/-- C2 counterexample: on the spec's 3-day example (`Q = 10` at day 3, sales
`day1:2, day2:1, day3:0`) the code does NOT produce the claimed series
`{day1:13, day2:11, day3:10}`. -/
theorem backward_reconstruction_claimed_series_refuted :
    reconstructDailyInventory ["day1", "day2", "day3"] 10
        [("day1", 2), ("day2", 1), ("day3", 0)] ≠
      [("day1", 13), ("day2", 11), ("day3", 10)] := by decide

/-- C2 amended: the backward walk assigns the running total BEFORE adding
back the day's own sales, so the example yields `{day1:11, day2:10, day3:10}`
(each day's value is the snapshot plus the sales of all strictly later days). -/
theorem backward_reconstruction_example_amended :
    reconstructDailyInventory ["day1", "day2", "day3"] 10
        [("day1", 2), ("day2", 1), ("day3", 0)] =
      [("day1", 11), ("day2", 10), ("day3", 10)] := by decide

/-- C3: on a one-day window with a single adjustment of `+5` dated that day,
part_002's `reconstructDailyLevels` leaves the day at `0` — its
`if (!daily[adj.date]) continue;` guard treats the initial `0` as falsy and
skips every adjustment — while part_003's version produces the claimed sum
of that day's deltas, `5`. -/
theorem forward_accumulation_divergence :
    lookupOr0 (reconstructDailyLevels_p2 ["2024-01-01"] [("2024-01-01", 5)]) "2024-01-01" = 0 ∧
    lookupOr0 (reconstructDailyLevels_p3 ["2024-01-01"] [("2024-01-01", 5)]) "2024-01-01" = 5 := by
  decide

/-- C5: three of the four normaliser examples hold, but
`normaliseSku "CUS-0028   ##"` returns its input unchanged — the regex
`\s*-#+\s*$` requires a hyphen before the `#` run, contradicting the
function's own doc comment and the spec example `-> "CUS-0028"`. -/
theorem normaliseSku_examples_divergence :
    normaliseSku "HAT-053-##" = some "HAT-053" ∧
    normaliseSku "50002" = some "50002" ∧
    normaliseSku "" = none ∧
    normaliseSku "CUS-0028   ##" = some "CUS-0028   ##" := by decide

/-- C6 counterexample: the normaliser is not idempotent.  One `replace` strips
only one trailing suffix occurrence, so `"A-#-#"` normalises to `"A-#"`,
which normalises again to `"A"`; and `" "` normalises to `""`, which is falsy
and re-normalises to `null`. -/
theorem normaliseSku_not_idempotent :
    normaliseSkuMap (normaliseSku "A-#-#") ≠ normaliseSku "A-#-#" ∧
    normaliseSkuMap (normaliseSku " ") ≠ normaliseSku " " := by decide

/-- C9: the CSV parser decodes quoted fields with doubled-quote escaping and
embedded commas: the single quoted field `"a,b""c"` parses to the one-row,
one-field table containing the literal `a,b"c`. -/
theorem parseCsv_quoted_field :
    parseCsv (String.mk ['"', 'a', ',', 'b', '"', '"', 'c', '"']) =
      [[String.mk ['a', ',', 'b', '"', 'c']]] := by decide

/-- The REST loop returns exactly the concatenation, in arrival order, of the
records contributed by the pages it visits. -/
theorem fetchVariants_eq_pages (getPage : Option String → RestPage) :
    ∀ (fuel : Nat) (cursor : Option String),
      fetchVariants getPage fuel cursor =
        ((restPagesVisited getPage fuel cursor).map collectRestVariants).flatten := by
  intro fuel
  induction fuel with
  | zero => intro cursor; rfl
  | succ n ih =>
      intro cursor
      rw [fetchVariants, restPagesVisited]
      cases hnext : nextCursor (getPage cursor).link with
      | none => simp
      | some c => simp [ih (some c)]

/-- The GraphQL loop returns the concatenation, in arrival order, of the
variants contributed by the pages it visits, provided no reachable page
combines `hasNextPage` with an empty edge list (on such a page the
JavaScript code would throw instead). -/
theorem fetchAllVariants_eq_pages (getPage : Option String → GqlPage)
    (hedges : ∀ c, (getPage c).hasNextPage = true → (getPage c).edges ≠ []) :
    ∀ (fuel : Nat) (cursor : Option String),
      fetchAllVariants getPage fuel cursor =
        some (((gqlPagesVisited getPage fuel cursor).map collectGqlVariants).flatten) := by
  intro fuel
  induction fuel with
  | zero => intro cursor; rfl
  | succ n ih =>
      intro cursor
      rw [fetchAllVariants, gqlPagesVisited]
      cases hn : (getPage cursor).hasNextPage with
      | false => simp [hn]
      | true =>
          have hne : (getPage cursor).edges ≠ [] := hedges cursor hn
          have hsome : ((getPage cursor).edges.getLast?).isSome :=
            List.getLast?_isSome.mpr hne
          obtain ⟨e, he⟩ := Option.isSome_iff_exists.mp hsome
          simp [hn, he, ih (some e.cursor)]

/-- C4: both paged fetch loops keep requesting while a continuation token is
present (`rel="next"` link with a `page_info` token for the REST loop, the
`hasNextPage` flag with the last edge's cursor for the GraphQL loop), stop
when it is absent, and return the concatenation of all visited pages'
records in arrival order. -/
theorem paged_fetch_loop_concatenates :
    (∀ (getPage : Option String → RestPage) (fuel : Nat) (cursor : Option String),
        fetchVariants getPage fuel cursor =
          ((restPagesVisited getPage fuel cursor).map collectRestVariants).flatten) ∧
    (∀ (getPage : Option String → GqlPage),
        (∀ c, (getPage c).hasNextPage = true → (getPage c).edges ≠ []) →
        ∀ (fuel : Nat) (cursor : Option String),
          fetchAllVariants getPage fuel cursor =
            some (((gqlPagesVisited getPage fuel cursor).map collectGqlVariants).flatten)) :=
  ⟨fetchVariants_eq_pages, fetchAllVariants_eq_pages⟩

/-- Witness for C4: the REST loop walks both demo pages and concatenates
their records; the GraphQL loop (hypothesis discharged: no page has
`hasNextPage` set) collects its single page. -/
theorem paged_fetch_loop_concatenates_witness :
    fetchVariants restDemoSource 5 none =
      [⟨"A-1", 1, 11⟩, ⟨"B-2", 2, 22⟩] ∧
    fetchAllVariants gqlDemoSource 5 none = some [⟨"v1", "A-1", some "i1"⟩] := by
  constructor
  · rw [paged_fetch_loop_concatenates.1 restDemoSource 5 none]
    decide
  · rw [paged_fetch_loop_concatenates.2 gqlDemoSource
      (by intro c hc; simp [gqlDemoSource] at hc) 5 none]
    decide

/-- C6 amended: the normaliser is idempotent on every string whose normalised
value is non-empty and is itself free of a trailing variant-count suffix.
(The counterexamples force both exclusions: `" "` normalises to the empty
string, which is falsy and re-normalises to `null`; `"A-#-#"` normalises to
`"A-#"`, which still carries a strippable suffix.) -/
theorem normaliseSku_idempotent_amended (x y : String)
    (h : normaliseSku x = some y) (hne : y ≠ "")
    (hfix : stripVariantSuffix y.data = y.data) :
    normaliseSkuMap (normaliseSku x) = normaliseSku x := by
  rw [h]
  show normaliseSku y = some y
  unfold normaliseSku at h
  by_cases hx : x = ""
  · simp [hx] at h
  · rw [if_neg hx] at h
    have hmk : String.mk (stripVariantSuffix (trimChars x.data)) = y :=
      Option.some.inj h
    have hy : y.data = stripVariantSuffix (trimChars x.data) := by
      rw [← hmk]
    have htrim : trimChars y.data = y.data := by
      apply trimChars_fix
      · rw [hy]
        exact stripVariantSuffix_head_not_ws _ (trimChars_head_not_ws _)
      · rw [hy]
        exact stripVariantSuffix_reverse_head_not_ws _ (trimChars_reverse_head_not_ws _)
    unfold normaliseSku
    rw [if_neg hne, htrim, hfix]

/-- Witness for C6 at `x = "HAT-053-##"`, whose normalised value `"HAT-053"`
is non-empty and suffix-free. -/
theorem normaliseSku_idempotent_amended_witness :
    normaliseSkuMap (normaliseSku "HAT-053-##") = normaliseSku "HAT-053-##" :=
  normaliseSku_idempotent_amended "HAT-053-##" "HAT-053" (by decide) (by decide) (by decide)

/-- Every record the merger emits is the merge-loop body applied to the two
lookups for its SKU. -/
theorem mergeSalesAndSheet_rec (salesStats : List (String × SalesStat))
    (sheetStats : List (String × SheetStat)) (sku : String) (rec : MergedItem)
    (hmem : (sku, rec) ∈ mergeSalesAndSheet salesStats sheetStats) :
    rec = mergeOne sku (List.lookup sku salesStats) (List.lookup sku sheetStats) := by
  unfold mergeSalesAndSheet at hmem
  simp only [List.mem_map] at hmem
  obtain ⟨s, _, heq⟩ := hmem
  injection heq with h1 h2
  subst h1
  exact h2.symm

/-- The merged in-stock rate is the guarded ratio of the record's own day
counters (they are copied unchanged from the effective sheet side). -/
theorem mergeOne_rate (sku : String) (so : Option SalesStat) (ho : Option SheetStat) :
    (mergeOne sku so ho).in_stock_rate_24m =
      if 0 < (mergeOne sku so ho).days_in_stock_24m + (mergeOne sku so ho).days_out_of_stock_24m
      then some ((mergeOne sku so ho).days_in_stock_24m /
          ((mergeOne sku so ho).days_in_stock_24m + (mergeOne sku so ho).days_out_of_stock_24m))
      else none := rfl

/-- The merged velocity is the guarded ratio of the record's own totals. -/
theorem mergeOne_velocity (sku : String) (so : Option SalesStat) (ho : Option SheetStat) :
    (mergeOne sku so ho).velocity_in_stock_24m =
      if 0 < (mergeOne sku so ho).days_in_stock_24m
      then some ((mergeOne sku so ho).total_sold_24m / (mergeOne sku so ho).days_in_stock_24m)
      else none := rfl

/-- C7: every record the merger produces satisfies the guarded-ratio
contract — `in_stock_rate_24m` is `daysInStock / (daysInStock +
daysOutOfStock)` when that denominator is positive and `null` otherwise, and
`velocity_in_stock_24m` is `totalSold / daysInStock` when `daysInStock` is
positive and `null` otherwise — so no division by zero is ever taken. -/
theorem merge_derived_fields (salesStats : List (String × SalesStat))
    (sheetStats : List (String × SheetStat)) (sku : String) (rec : MergedItem)
    (hmem : (sku, rec) ∈ mergeSalesAndSheet salesStats sheetStats) :
    (0 < rec.days_in_stock_24m + rec.days_out_of_stock_24m →
        rec.in_stock_rate_24m =
          some (rec.days_in_stock_24m /
            (rec.days_in_stock_24m + rec.days_out_of_stock_24m))) ∧
    (¬ 0 < rec.days_in_stock_24m + rec.days_out_of_stock_24m →
        rec.in_stock_rate_24m = none) ∧
    (0 < rec.days_in_stock_24m →
        rec.velocity_in_stock_24m = some (rec.total_sold_24m / rec.days_in_stock_24m)) ∧
    (¬ 0 < rec.days_in_stock_24m → rec.velocity_in_stock_24m = none) := by
  have hrec := mergeSalesAndSheet_rec salesStats sheetStats sku rec hmem
  subst hrec
  refine ⟨fun hp => ?_, fun hp => ?_, fun hp => ?_, fun hp => ?_⟩
  · rw [mergeOne_rate, if_pos hp]
  · rw [mergeOne_rate, if_neg hp]
  · rw [mergeOne_velocity, if_pos hp]
  · rw [mergeOne_velocity, if_neg hp]

/-- Witness for C7: merging an empty sales map with a sheet containing only
`sheetOnlyDemo` yields `in_stock_rate_24m = null` (not zero) for that SKU. -/
theorem merge_derived_fields_witness :
    (mergeOne "CUS-9" none (some sheetOnlyDemo)).in_stock_rate_24m = none := by
  have heq : mergeSalesAndSheet [] [("CUS-9", sheetOnlyDemo)] =
      [("CUS-9", mergeOne "CUS-9" none (some sheetOnlyDemo))] := rfl
  have hmem : ("CUS-9", mergeOne "CUS-9" none (some sheetOnlyDemo)) ∈
      mergeSalesAndSheet [] [("CUS-9", sheetOnlyDemo)] := by
    rw [heq]
    exact List.mem_singleton.mpr rfl
  have h := merge_derived_fields [] [("CUS-9", sheetOnlyDemo)] "CUS-9"
    (mergeOne "CUS-9" none (some sheetOnlyDemo)) hmem
  exact h.2.1 (by norm_num [mergeOne, sheetOnlyDemo])

/-- C8: on a data row whose sell-through cell reads `0%` and whose
inventory-units-sold cell reads `abc`, the parser stores `null`
for the reported zero (the `|| null` coercion erases it) and `NaN` — not
`null` — for the unparseable cell, while the days-in-stock cell `5` parses
normally.  Both outcomes contradict the claimed null/zero separation. -/
theorem sheet_numeric_cells_divergence :
    (sheetRecordOfRow sheetIdxDemo ["SKU1", "5", "0%", "abc"]).map
        (fun p => (p.2.sell_through_rate_csv, p.2.inventory_units_sold_csv,
          p.2.days_in_stock_24m)) =
      some (JsNumVal.null, JsNumVal.nan, JsNumVal.num 5) := by decide

/-- A successful association-list lookup locates a present pair. -/
theorem lookup_mem {β : Type} (k : String) (v : β) (l : List (String × β))
    (h : List.lookup k l = some v) : (k, v) ∈ l := by
  induction l with
  | nil => simp [List.lookup] at h
  | cons p t ih =>
      obtain ⟨k2, v2⟩ := p
      rw [List.lookup] at h
      cases hbeq : (k == k2) with
      | true =>
          rw [hbeq] at h
          have hk : k = k2 := eq_of_beq hbeq
          have hv : v2 = v := Option.some.inj h
          subst hk
          subst hv
          exact List.mem_cons_self _ _
      | false =>
          rw [hbeq] at h
          exact List.mem_cons_of_mem _ (ih h)

/-- The in-stock rate computed by the merge-loop body is `null` or lies in
`[0, 1]`, given non-negative day counters on the (possibly absent) sheet
side. -/
theorem mergeOne_rate_bounds (sku : String) (so : Option SalesStat)
    (ho : Option SheetStat)
    (h : ∀ sh, ho = some sh → 0 ≤ sh.days_in_stock_24m ∧ 0 ≤ sh.days_out_of_stock_24m) :
    (mergeOne sku so ho).in_stock_rate_24m = none ∨
      ∃ r, (mergeOne sku so ho).in_stock_rate_24m = some r ∧ 0 ≤ r ∧ r ≤ 1 := by
  cases ho with
  | none =>
      left
      rw [mergeOne_rate]
      norm_num [mergeOne]
  | some sh =>
      obtain ⟨h1, h2⟩ := h sh rfl
      by_cases hpos : 0 < sh.days_in_stock_24m + sh.days_out_of_stock_24m
      · right
        refine ⟨sh.days_in_stock_24m / (sh.days_in_stock_24m + sh.days_out_of_stock_24m),
          ?_, ?_, ?_⟩
        · rw [mergeOne_rate]
          simp only [mergeOne, Option.getD_some]
          rw [if_pos hpos]
        · exact div_nonneg h1 (le_of_lt hpos)
        · rw [div_le_one hpos]
          exact le_add_of_nonneg_right h2
      · left
        rw [mergeOne_rate]
        simp only [mergeOne, Option.getD_some]
        rw [if_neg hpos]

/-- C10: for every pair of input maps whose sheet-side day counters are
non-negative, every record the merger produces has `in_stock_rate_24m`
either `null` or a rational in `[0, 1]`. -/
theorem in_stock_rate_bounded (salesStats : List (String × SalesStat))
    (sheetStats : List (String × SheetStat))
    (hnn : ∀ p ∈ sheetStats, 0 ≤ p.2.days_in_stock_24m ∧ 0 ≤ p.2.days_out_of_stock_24m)
    (sku : String) (rec : MergedItem)
    (hmem : (sku, rec) ∈ mergeSalesAndSheet salesStats sheetStats) :
    rec.in_stock_rate_24m = none ∨
      ∃ r, rec.in_stock_rate_24m = some r ∧ 0 ≤ r ∧ r ≤ 1 := by
  have hrec := mergeSalesAndSheet_rec salesStats sheetStats sku rec hmem
  subst hrec
  apply mergeOne_rate_bounds
  intro sh hsh
  exact hnn (sku, sh) (lookup_mem sku sh sheetStats hsh)

/-- Witness for C10: merging an empty sales map with a one-record sheet whose
day counters are non-negative produces a bounded (or null) rate. -/
theorem in_stock_rate_bounded_witness :
    (mergeOne "HAT-9" none (some sheetBoundsDemo)).in_stock_rate_24m = none ∨
      ∃ r, (mergeOne "HAT-9" none (some sheetBoundsDemo)).in_stock_rate_24m = some r ∧
        0 ≤ r ∧ r ≤ 1 := by
  have heq : mergeSalesAndSheet [] [("HAT-9", sheetBoundsDemo)] =
      [("HAT-9", mergeOne "HAT-9" none (some sheetBoundsDemo))] := rfl
  have hmem : ("HAT-9", mergeOne "HAT-9" none (some sheetBoundsDemo)) ∈
      mergeSalesAndSheet [] [("HAT-9", sheetBoundsDemo)] := by
    rw [heq]
    exact List.mem_singleton.mpr rfl
  refine in_stock_rate_bounded [] [("HAT-9", sheetBoundsDemo)] ?_ "HAT-9"
    (mergeOne "HAT-9" none (some sheetBoundsDemo)) hmem
  intro p hp
  rw [List.mem_singleton] at hp
  subst hp
  exact ⟨by norm_num [sheetBoundsDemo], by norm_num [sheetBoundsDemo]⟩
